import Mathlib

/-!
Verification of the porter2 Elasticsearch migration toolkit (Go).

The development shallowly embeds the parts of the source the claims touch:

* the JSON value model and `encoding/json` marshalling used by
  `utils.MarshalJSON` (Go maps are unordered and marshalled with keys in
  ascending order, so `map[string]interface{}` values are represented as
  association lists kept in strictly ascending key order; Go struct fields
  are marshalled in declaration order);
* the option-producer composition loops (`utils.GetMap`,
  `mappings.NewFields`, and the per-factory loops of `fields.go` and
  `analyzers.go`);
* the document origin resolvers (`newLocationFromFile`,
  `newLocationGenerate`) and the fake-data table of `part_000`;
* the migration orchestrator (`M.MigrateUp`, `M.MigrateDown`,
  `MigrateIndex`, `MigrateDocuments`, `NoIndex`, `NoDocuments`).

Effects are made explicit: the Elasticsearch client (`searcher`) and the
phase operations thread a trace of invocation events (the spec's
"recording test double"), the OS file read of `os.ReadFile` is a function
parameter, and the external fake-value provider of gofakeit is a function
parameter keyed by fake kind.  A Go runtime panic is modelled as `none`.
-/

namespace Porter

/-- JSON values as produced by the library: strings, integers, booleans,
string arrays (every array the library ever puts in a map is a string
list) and objects.  Objects are association lists; all code paths keep
them in the canonical Go-map representation (strictly ascending keys),
matching the fact that Go maps are unordered and `encoding/json`
marshals their keys in sorted order. -/
inductive Value where
  | str (s : String)
  | int (n : Int)
  | bool (b : Bool)
  | arrStr (xs : List String)
  | obj (fields : List (String × Value))
deriving Repr

/-- Association-list representation of `map[string]interface{}`. -/
abbrev Obj := List (String × Value)

/-- Go map indexing `m[k]` (first matching key of the canonical list). -/
def lookupKV {α : Type} : List (String × α) → String → Option α
  | [], _ => none
  | (k', v) :: rest, k => if k = k' then some v else lookupKV rest k

/-- Go map assignment `m[k] = v`: replace the binding if the key is
present, otherwise add it; insertion keeps the canonical ascending key
order. -/
def insertKV {α : Type} : List (String × α) → String → α → List (String × α)
  | [], k, v => [(k, v)]
  | (k', v') :: rest, k, v =>
    if k < k' then (k, v) :: (k', v') :: rest
    else if k = k' then (k, v) :: rest
    else (k', v') :: insertKV rest k v

/-- Keys of an object value (empty for non-objects). -/
def objKeys : Value → List String
  | .obj kvs => kvs.map Prod.fst
  | _ => []

/-- JSON string escaping for one character, as `encoding/json` does for
the characters that matter to the claims (quote, backslash and the
control characters that would otherwise break the one-line-per-document
NDJSON shape). -/
def escapeChar (c : Char) : String :=
  if c = '"' then "\\\""
  else if c = '\\' then "\\\\"
  else if c = '\n' then "\\n"
  else if c = '\r' then "\\r"
  else if c = '\t' then "\\t"
  else String.singleton c

/-- JSON string escaping of a character list. -/
def escapeChars : List Char → String
  | [] => ""
  | c :: rest => escapeChar c ++ escapeChars rest

/-- JSON string literal: quote and escape. -/
def quoteString (s : String) : String :=
  "\"" ++ escapeChars s.data ++ "\""

/-- Decimal digits of a natural number, most significant first. -/
def natToChars (n : Nat) : List Char :=
  if h : n < 10 then [Nat.digitChar n]
  else natToChars (n / 10) ++ [Nat.digitChar (n % 10)]
decreasing_by
  exact Nat.div_lt_self (Nat.lt_of_lt_of_le (by decide) (Nat.le_of_not_lt h)) (by decide)

/-- Decimal rendering of an integer, as `encoding/json` renders Go ints. -/
def intToString : Int → String
  | .ofNat n => String.mk (natToChars n)
  | .negSucc m => "-" ++ String.mk (natToChars (m + 1))

/-- Comma-separated rendering of a JSON string array body. -/
def marshalStrList : List String → String
  | [] => ""
  | [s] => quoteString s
  | s :: rest => quoteString s ++ "," ++ marshalStrList rest

mutual

/-- Model of `encoding/json` marshalling of a value.  Objects are emitted in list
order; since every object the library builds is kept in ascending key
order, this agrees with Go's sorted-key map marshalling. -/
def marshalValue : Value → String
  | .str s => quoteString s
  | .int n => intToString n
  | .bool b => if b then "true" else "false"
  | .arrStr xs => "[" ++ marshalStrList xs ++ "]"
  | .obj kvs => "\x7b" ++ marshalFields kvs ++ "\x7d"

/-- Comma-separated `"key":value` pairs of an object body. -/
def marshalFields : List (String × Value) → String
  | [] => ""
  | [(k, v)] => quoteString k ++ ":" ++ marshalValue v
  | (k, v) :: rest => quoteString k ++ ":" ++ marshalValue v ++ "," ++ marshalFields rest

end

/-- First-some choice on options (used to state "later producer wins"
lookups compositionally). -/
def orO {α : Type} : Option α → Option α → Option α
  | some v, _ => some v
  | none, b => b

theorem orO_none_right {α : Type} (a : Option α) : orO a none = a := by
  cases a <;> rfl

theorem orO_assoc {α : Type} (a b c : Option α) :
    orO (orO a b) c = orO a (orO b c) := by
  cases a <;> rfl

theorem lookupKV_insert_self {α : Type} (m : List (String × α)) (k : String) (v : α) :
    lookupKV (insertKV m k v) k = some v := by
  induction m with
  | nil => simp [insertKV, lookupKV]
  | cons hd tl ih =>
    obtain ⟨k', v'⟩ := hd
    by_cases h1 : k < k'
    · simp [insertKV, h1, lookupKV]
    · by_cases h2 : k = k'
      · simp [insertKV, h1, h2, lookupKV]
      · simp [insertKV, h1, h2, lookupKV, ih]

theorem lookupKV_insert_ne {α : Type} (m : List (String × α)) (k k' : String) (v : α)
    (h : k' ≠ k) : lookupKV (insertKV m k v) k' = lookupKV m k' := by
  induction m with
  | nil => simp [insertKV, lookupKV, h]
  | cons hd tl ih =>
    obtain ⟨k0, v0⟩ := hd
    by_cases h1 : k < k0
    · simp [insertKV, h1, lookupKV, h]
    · by_cases h2 : k = k0
      · subst h2
        simp [insertKV, h1, lookupKV, h]
      · simp [insertKV, h1, h2, lookupKV, ih]

theorem lookupKV_append {α : Type} (l1 l2 : List (String × α)) (k : String) :
    lookupKV (l1 ++ l2) k = orO (lookupKV l1 k) (lookupKV l2 k) := by
  induction l1 with
  | nil => simp [lookupKV, orO]
  | cons hd tl ih =>
    obtain ⟨k0, v0⟩ := hd
    by_cases h : k = k0
    · simp [lookupKV, h, orO]
    · simp [lookupKV, h, ih]

/-- Last-occurrence lookup: the value the last producer contributed for a
key, scanning an accumulated fragment list. -/
def lookupLast {α : Type} (l : List (String × α)) (k : String) : Option α :=
  lookupKV l.reverse k

theorem lookupLast_nil {α : Type} (k : String) :
    lookupLast ([] : List (String × α)) k = none := rfl

theorem lookupLast_cons {α : Type} (x : String × α) (rest : List (String × α)) (k : String) :
    lookupLast (x :: rest) k =
      orO (lookupLast rest k) (if k = x.1 then some x.2 else none) := by
  unfold lookupLast
  rw [List.reverse_cons, lookupKV_append]
  rfl

theorem lookupLast_append {α : Type} (l1 l2 : List (String × α)) (k : String) :
    lookupLast (l1 ++ l2) k = orO (lookupLast l2 k) (lookupLast l1 k) := by
  unfold lookupLast
  rw [List.reverse_append, lookupKV_append]

theorem lookupLast_isSome_iff {α : Type} (l : List (String × α)) (k : String) :
    (lookupLast l k).isSome ↔ k ∈ l.map Prod.fst := by
  induction l with
  | nil => simp [lookupLast_nil]
  | cons hd tl ih =>
    rw [lookupLast_cons]
    by_cases h : k = hd.1
    · rcases h' : lookupLast tl k with _ | v <;> simp [h, h', orO]
    · rcases h' : lookupLast tl k with _ | v <;>
        simp [h, h', orO, ← ih, Ne.symm h]

/-! ### The composer (`utils.GetMap`, `mappings.NewFields`, per-factory loops)

A property producer is modelled as `Option Obj`: `none` is a nil Go
function value (skipped by the loops), `some frag` is a producer whose
call returns the map `frag`.  The inner `for k, v := range fn()` loop
over a returned Go map is the fold of `insertKV` over its canonical
association list. -/

/-- One iteration of `for k, v := range fn() { r[k] = v }`. -/
def mergeFragment (r : Obj) (frag : Obj) : Obj :=
  frag.foldl (fun r2 kv => insertKV r2 kv.1 kv.2) r

/-- The composition loop shared verbatim by `utils.GetMap`,
`mappings.NewFields` and every factory in `fields.go`/`analyzers.go`:
skip nil producers, merge the fragments of the rest in order. -/
def mergeInto (acc : Obj) (producers : List (Option Obj)) : Obj :=
  producers.foldl
    (fun r fn =>
      match fn with
      | none => r
      | some frag => mergeFragment r frag)
    acc

/-- Model of `utils.GetMap` (src/internal/utils/utils.go lines 11-24). -/
def GetMap (funcs : List (Option Obj)) : Obj := mergeInto [] funcs

/-- Model of `mappings.NewFields` (src/fields.go lines 36-49); its body is the
same loop as `utils.GetMap`. -/
def NewFields (fields : List (Option Obj)) : Obj := mergeInto [] fields

/-- The key/value fragments contributed by the non-nil producers, in
producer order (the spec-side description of the composition). -/
def contributions : List (Option Obj) → Obj
  | [] => []
  | none :: rest => contributions rest
  | some frag :: rest => frag ++ contributions rest

theorem lookupKV_mergeFragment (frag : Obj) (r : Obj) (k : String) :
    lookupKV (mergeFragment r frag) k = orO (lookupLast frag k) (lookupKV r k) := by
  induction frag generalizing r with
  | nil => simp [mergeFragment, lookupLast_nil, orO]
  | cons hd tl ih =>
    obtain ⟨k0, v0⟩ := hd
    show lookupKV (mergeFragment (insertKV r k0 v0) tl) k = _
    rw [ih, lookupLast_cons]
    by_cases h : k = k0
    · subst h
      rw [lookupKV_insert_self]
      rcases lookupLast tl k with _ | v <;> simp [orO]
    · rw [lookupKV_insert_ne r k0 k v0 h]
      rcases lookupLast tl k with _ | v <;> simp [orO, h]

theorem lookupKV_mergeInto (producers : List (Option Obj)) (acc : Obj) (k : String) :
    lookupKV (mergeInto acc producers) k =
      orO (lookupLast (contributions producers) k) (lookupKV acc k) := by
  induction producers generalizing acc with
  | nil => simp [mergeInto, contributions, lookupLast_nil, orO]
  | cons hd tl ih =>
    cases hd with
    | none =>
      show lookupKV (mergeInto acc tl) k = _
      rw [ih, contributions]
    | some frag =>
      show lookupKV (mergeInto (mergeFragment acc frag) tl) k = _
      rw [ih, contributions, lookupKV_mergeFragment, lookupLast_append, orO_assoc]

/-! ### Type-registry factories (src/fields.go, src/analyzers.go)

Every factory runs the same composition loop over its option producers
and then assigns the kind's wire discriminator with `r["type"] = ...`.
The body of each factory is given below; the factory itself wraps the
body as `{name: body}` (and, for field factories, first records
`name -> fakeKind` in the Field-Binding Table via `storeToGenerate`). -/

/-- The option-composition loop inlined in every factory. -/
def composeProperties (props : List (Option Obj)) : Obj := mergeInto [] props

/-- Body of `newFieldKeyword` (src/fields.go lines 58-81). -/
def fieldKeywordBody (props : List (Option Obj)) : Obj :=
  insertKV (composeProperties props) "type" (Value.str "keyword")

/-- Body of `newFieldText`. -/
def fieldTextBody (props : List (Option Obj)) : Obj :=
  insertKV (composeProperties props) "type" (Value.str "text")

/-- Body of `newFieldInteger`. -/
def fieldIntegerBody (props : List (Option Obj)) : Obj :=
  insertKV (composeProperties props) "type" (Value.str "integer")

/-- Body of `newFieldLong`. -/
def fieldLongBody (props : List (Option Obj)) : Obj :=
  insertKV (composeProperties props) "type" (Value.str "long")

/-- Body of `newFieldFloat`. -/
def fieldFloatBody (props : List (Option Obj)) : Obj :=
  insertKV (composeProperties props) "type" (Value.str "float")

/-- Body of `newFieldDouble`. -/
def fieldDoubleBody (props : List (Option Obj)) : Obj :=
  insertKV (composeProperties props) "type" (Value.str "double")

/-- Body of `newFieldShort`. -/
def fieldShortBody (props : List (Option Obj)) : Obj :=
  insertKV (composeProperties props) "type" (Value.str "short")

/-- Body of `newFieldByte`. -/
def fieldByteBody (props : List (Option Obj)) : Obj :=
  insertKV (composeProperties props) "type" (Value.str "byte")

/-- Body of `newFieldHalfFloat`. -/
def fieldHalfFloatBody (props : List (Option Obj)) : Obj :=
  insertKV (composeProperties props) "type" (Value.str "half_float")

/-- Body of `newFieldScaledFloat`. -/
def fieldScaledFloatBody (props : List (Option Obj)) : Obj :=
  insertKV (composeProperties props) "type" (Value.str "scaled_float")

/-- Body of `newFieldDate`. -/
def fieldDateBody (props : List (Option Obj)) : Obj :=
  insertKV (composeProperties props) "type" (Value.str "date")

/-- Body of `newFieldBoolean`. -/
def fieldBooleanBody (props : List (Option Obj)) : Obj :=
  insertKV (composeProperties props) "type" (Value.str "boolean")

/-- Body of `newFieldIP`. -/
def fieldIPBody (props : List (Option Obj)) : Obj :=
  insertKV (composeProperties props) "type" (Value.str "ip")

/-- Body of `newAnalyzerStandard` (src/analyzers.go lines 48-69). -/
def analyzerStandardBody (props : List (Option Obj)) : Obj :=
  insertKV (composeProperties props) "type" (Value.str "standard")

/-- Body of `newAnalyzerSimple` (takes no options). -/
def analyzerSimpleBody : Obj :=
  insertKV [] "type" (Value.str "simple")

/-- Body of `newAnalyzerWhitespace` (takes no options). -/
def analyzerWhitespaceBody : Obj :=
  insertKV [] "type" (Value.str "whitespace")

/-- Body of `newAnalyzerStop`. -/
def analyzerStopBody (props : List (Option Obj)) : Obj :=
  insertKV (composeProperties props) "type" (Value.str "stop")

/-- Body of `newAnalyzerKeyword` (takes no options). -/
def analyzerKeywordBody : Obj :=
  insertKV [] "type" (Value.str "keyword")

/-- Body of `newAnalyzerPattern`. -/
def analyzerPatternBody (props : List (Option Obj)) : Obj :=
  insertKV (composeProperties props) "type" (Value.str "pattern")

/-- Body of `newAnalyzerFingerprint`. -/
def analyzerFingerprintBody (props : List (Option Obj)) : Obj :=
  insertKV (composeProperties props) "type" (Value.str "fingerprint")

/-- Body of `newAnalyzerCustom`. -/
def analyzerCustomBody (props : List (Option Obj)) : Obj :=
  insertKV (composeProperties props) "type" (Value.str "custom")

/-- Body of `newNormalizerCustom` (src/fields.go lines 1288-1309). -/
def normalizerCustomBody (props : List (Option Obj)) : Obj :=
  insertKV (composeProperties props) "type" (Value.str "custom")

/-- The stem-exclusion allow-list of `newAnalyzerLanguage`
(src/analyzers.go lines 353-383): the keys of `stemExclusionAllow`. -/
def stemExclusionAllow : List String :=
  ["arabic", "armenian", "basque", "bengali", "bulgarian", "catalan",
   "czech", "dutch", "english", "finnish", "french", "galician", "german",
   "hindi", "hungarian", "indonesian", "irish", "italian", "latvian",
   "lithuanian", "norwegian", "portuguese", "romanian", "russian",
   "serbian", "sorani", "spanish", "swedish", "turkish"]

/-- The fragment-merging loop of `newAnalyzerLanguage`: identical to
`mergeFragment` except that a `stem_exclusion` key is skipped whenever
the selected language is not in the allow-list. -/
def mergeLangFragment (language : String) (r : Obj) (frag : Obj) : Obj :=
  frag.foldl
    (fun r2 kv =>
      if kv.1 = "stem_exclusion" ∧ language ∉ stemExclusionAllow then r2
      else insertKV r2 kv.1 kv.2)
    r

/-- The producer loop of `newAnalyzerLanguage`. -/
def mergeLangInto (language : String) (acc : Obj) (props : List (Option Obj)) : Obj :=
  props.foldl
    (fun r fn =>
      match fn with
      | none => r
      | some frag => mergeLangFragment language r frag)
    acc

/-- Body of `newAnalyzerLanguage` (src/analyzers.go lines 350-410): the
filtered composition followed by `r["type"] = string(language)`. -/
def analyzerLanguageBody (language : String) (props : List (Option Obj)) : Obj :=
  insertKV (mergeLangInto language [] props) "type" (Value.str language)

/-- Model of `newAnalyzerLanguage` as a whole: `{name: body}`. -/
def newAnalyzerLanguage (name language : String) (props : List (Option Obj)) : Obj :=
  [(name, Value.obj (analyzerLanguageBody language props))]

/-- Model of `AnalyzerLanguage.WithStemExclusion` (src/analyzers.go lines
430-437): the producer's returned fragment, built unconditionally. -/
def WithStemExclusion (value : List String) : Obj :=
  [("stem_exclusion", Value.arrStr value)]

/-- Model of `storeToGenerate` (src/unnamed/part_000 lines 187-189): record a
binding in the Field-Binding Table (`toGenerate`). -/
def storeToGenerate (table : List (String × String)) (name t : String) :
    List (String × String) :=
  insertKV table name t

/-- Model of `newFieldKeyword` (src/fields.go lines 58-81) with the Field-Binding
Table made explicit: records `name -> fake`, then yields the producer
fragment `{name: body}`. -/
def newFieldKeyword (table : List (String × String)) (name fake : String)
    (props : List (Option Obj)) : List (String × String) × Obj :=
  (storeToGenerate table name fake, [(name, Value.obj (fieldKeywordBody props))])

theorem mergeLangFragment_of_allowed (language : String)
    (h : language ∈ stemExclusionAllow) (r frag : Obj) :
    mergeLangFragment language r frag = mergeFragment r frag := by
  induction frag generalizing r with
  | nil => rfl
  | cons hd tl ih =>
    show mergeLangFragment language (if _ then r else _) tl = _
    rw [if_neg (fun hc => hc.2 h)]
    exact ih (insertKV r hd.1 hd.2)

theorem mergeLangInto_of_allowed (language : String)
    (h : language ∈ stemExclusionAllow) (acc : Obj) (props : List (Option Obj)) :
    mergeLangInto language acc props = mergeInto acc props := by
  induction props generalizing acc with
  | nil => rfl
  | cons hd tl ih =>
    cases hd with
    | none => exact ih acc
    | some frag =>
      show mergeLangInto language (mergeLangFragment language acc frag) tl = _
      rw [mergeLangFragment_of_allowed language h]
      exact ih (mergeFragment acc frag)

theorem lookupKV_mergeLangFragment_stem (language : String)
    (h : language ∉ stemExclusionAllow) (r frag : Obj) :
    lookupKV (mergeLangFragment language r frag) "stem_exclusion" =
      lookupKV r "stem_exclusion" := by
  induction frag generalizing r with
  | nil => rfl
  | cons hd tl ih =>
    by_cases hk : hd.1 = "stem_exclusion"
    · show lookupKV (mergeLangFragment language (if _ then r else _) tl) _ = _
      rw [if_pos ⟨hk, h⟩]
      exact ih r
    · show lookupKV (mergeLangFragment language (if _ then r else _) tl) _ = _
      rw [if_neg (fun hc => hk hc.1)]
      rw [ih (insertKV r hd.1 hd.2)]
      exact lookupKV_insert_ne r hd.1 "stem_exclusion" hd.2 (fun he => hk he.symm)

theorem lookupKV_mergeLangInto_stem (language : String)
    (h : language ∉ stemExclusionAllow) (acc : Obj) (props : List (Option Obj)) :
    lookupKV (mergeLangInto language acc props) "stem_exclusion" =
      lookupKV acc "stem_exclusion" := by
  induction props generalizing acc with
  | nil => rfl
  | cons hd tl ih =>
    cases hd with
    | none => exact ih acc
    | some frag =>
      show lookupKV (mergeLangInto language (mergeLangFragment language acc frag) tl) _ = _
      rw [ih (mergeLangFragment language acc frag)]
      exact lookupKV_mergeLangFragment_stem language h acc frag

/-! ### Claim C3, C8, C10 theorems -/

/-- C3: for every ordered sequence of property producers, the composer's
result map is exactly the union of the key/value fragments contributed
by the non-nil producers — nil entries are skipped without error, and on
a key collision the later producer's value is retained (last-write-wins).
Formally: looking up any key in `GetMap funcs` gives the last value for
that key among the concatenated fragments of the non-nil producers; a
key is present exactly when some non-nil producer contributed it; a nil
producer changes nothing; and `mappings.NewFields` runs the identical
loop. -/
theorem getMap_union_last_wins (funcs : List (Option Obj)) (k : String) :
    lookupKV (GetMap funcs) k = lookupLast (contributions funcs) k
    ∧ ((lookupKV (GetMap funcs) k).isSome ↔ k ∈ (contributions funcs).map Prod.fst)
    ∧ GetMap (none :: funcs) = GetMap funcs
    ∧ NewFields funcs = GetMap funcs := by
  have h1 : lookupKV (GetMap funcs) k = lookupLast (contributions funcs) k := by
    rw [GetMap, lookupKV_mergeInto]
    exact orO_none_right _
  exact ⟨h1, by rw [h1]; exact lookupLast_isSome_iff _ _, rfl, rfl⟩

/-- C8: the language-analyzer factory drops the `stem_exclusion` option
from the composed body exactly when the selected language is not in the
fixed 29-language allow-list, and the filtering happens during body
composition — `WithStemExclusion` itself always constructs its
`stem_exclusion` fragment unconditionally.  For an allow-listed language
the key is retained (with the usual last-write-wins value). -/
theorem stemExclusion_filtering (language : String) (props : List (Option Obj))
    (v : List String) :
    WithStemExclusion v = [("stem_exclusion", Value.arrStr v)]
    ∧ lookupKV (analyzerLanguageBody language props) "stem_exclusion" =
        (if language ∈ stemExclusionAllow
         then lookupLast (contributions props) "stem_exclusion"
         else none)
    ∧ stemExclusionAllow.length = 29 := by
  refine ⟨rfl, ?_, rfl⟩
  rw [analyzerLanguageBody,
    lookupKV_insert_ne _ "type" "stem_exclusion" _ (by decide)]
  by_cases h : language ∈ stemExclusionAllow
  · rw [if_pos h, mergeLangInto_of_allowed language h, ← GetMap, GetMap,
      lookupKV_mergeInto]
    exact orO_none_right _
  · rw [if_neg h, lookupKV_mergeLangInto_stem language h]
    rfl

/-- C10: for every factory and every sequence of option producers —
including producers that themselves contribute a `type` key — the
composed body's `type` key equals the kind's fixed wire discriminator,
because the discriminator is assigned after option composition and
therefore overwrites any option-supplied value.  Stated for all thirteen
field factories, all nine analyzer factories (the language analyzer's
discriminator being the language string) and the custom normalizer
factory. -/
theorem type_discriminator_overrides (props : List (Option Obj)) (language : String) :
    lookupKV (fieldKeywordBody props) "type" = some (Value.str "keyword")
    ∧ lookupKV (fieldTextBody props) "type" = some (Value.str "text")
    ∧ lookupKV (fieldIntegerBody props) "type" = some (Value.str "integer")
    ∧ lookupKV (fieldLongBody props) "type" = some (Value.str "long")
    ∧ lookupKV (fieldFloatBody props) "type" = some (Value.str "float")
    ∧ lookupKV (fieldDoubleBody props) "type" = some (Value.str "double")
    ∧ lookupKV (fieldShortBody props) "type" = some (Value.str "short")
    ∧ lookupKV (fieldByteBody props) "type" = some (Value.str "byte")
    ∧ lookupKV (fieldHalfFloatBody props) "type" = some (Value.str "half_float")
    ∧ lookupKV (fieldScaledFloatBody props) "type" = some (Value.str "scaled_float")
    ∧ lookupKV (fieldDateBody props) "type" = some (Value.str "date")
    ∧ lookupKV (fieldBooleanBody props) "type" = some (Value.str "boolean")
    ∧ lookupKV (fieldIPBody props) "type" = some (Value.str "ip")
    ∧ lookupKV (analyzerStandardBody props) "type" = some (Value.str "standard")
    ∧ lookupKV analyzerSimpleBody "type" = some (Value.str "simple")
    ∧ lookupKV analyzerWhitespaceBody "type" = some (Value.str "whitespace")
    ∧ lookupKV (analyzerStopBody props) "type" = some (Value.str "stop")
    ∧ lookupKV analyzerKeywordBody "type" = some (Value.str "keyword")
    ∧ lookupKV (analyzerPatternBody props) "type" = some (Value.str "pattern")
    ∧ lookupKV (analyzerFingerprintBody props) "type" = some (Value.str "fingerprint")
    ∧ lookupKV (analyzerCustomBody props) "type" = some (Value.str "custom")
    ∧ lookupKV (analyzerLanguageBody language props) "type" = some (Value.str language)
    ∧ lookupKV (normalizerCustomBody props) "type" = some (Value.str "custom") :=
  ⟨lookupKV_insert_self _ _ _, lookupKV_insert_self _ _ _,
   lookupKV_insert_self _ _ _, lookupKV_insert_self _ _ _,
   lookupKV_insert_self _ _ _, lookupKV_insert_self _ _ _,
   lookupKV_insert_self _ _ _, lookupKV_insert_self _ _ _,
   lookupKV_insert_self _ _ _, lookupKV_insert_self _ _ _,
   lookupKV_insert_self _ _ _, lookupKV_insert_self _ _ _,
   lookupKV_insert_self _ _ _, lookupKV_insert_self _ _ _,
   lookupKV_insert_self _ _ _, lookupKV_insert_self _ _ _,
   lookupKV_insert_self _ _ _, lookupKV_insert_self _ _ _,
   lookupKV_insert_self _ _ _, lookupKV_insert_self _ _ _,
   lookupKV_insert_self _ _ _, lookupKV_insert_self _ _ _,
   lookupKV_insert_self _ _ _⟩

/-! ### Fake-data generation (src/unnamed/part_000)

`generateFakeData` looks the kind tag up in the `fakeFuncs` map and
calls the resulting function value.  For a kind that is not a key of
that map the lookup yields a nil Go function and calling it is a runtime
panic; a panic is modelled as `none`.  The scalar generators themselves
(gofakeit) are the external fake-value provider, modelled as a function
from kind tag to produced string. -/

/-- The keys of the `fakeFuncs` map in `generateFakeData`
(src/unnamed/part_000 lines 191-221). -/
def fakeKinds : List String :=
  ["email", "first_name", "last_name", "full_name", "username", "phone",
   "country", "city", "street", "zip", "uuid", "url", "company",
   "job_title", "color", "ipv4", "ipv6", "bool", "int", "float", "date",
   "timestamp", "paragraph"]

/-- Model of `generateFakeData`: look up the generator for a kind and call it.
`none` models the nil-function panic on an unknown kind. -/
def generateFakeData (provider : String → String) (t : String) : Option String :=
  if t ∈ fakeKinds then some (provider t) else none

/-- The `for k, v := range toGenerate` loop of `newLocationGenerate`
that builds one synthesized document map `f`; aborts (panic, `none`) on
the first unknown kind. -/
def buildFakeDoc (provider : String → String) :
    List (String × String) → Obj → Option Obj
  | [], f => some f
  | (k, t) :: rest, f =>
    match generateFakeData provider t with
    | none => none
    | some data => buildFakeDoc provider rest (insertKV f k (Value.str data))

/-- The action-meta map literal
`map[string]interface\x7b\x7d\x7b"index": \x7b"_index": t.config.Name, "_id": c\x7d\x7d`
of `newLocationGenerate`, in the canonical (ascending-key) map
representation. -/
def metaValue (indexName : String) (c : Nat) : Value :=
  Value.obj [("index", Value.obj [("_id", Value.int c), ("_index", Value.str indexName)])]

/-- One iteration of the `for c := 1; c <= amount; c++` loop of
`newLocationGenerate` (src/unnamed/part_000 lines 54-87): build the meta
map and a fresh fake document, marshal both and append each followed by
a newline.  The `indexName` argument is `t.config.Name`, `table` is the
state of the Field-Binding Table `toGenerate` at call time.  A `none`
payload models the run dying in a panic, with nothing returned. -/
def generateStep (indexName : String) (table : List (String × String))
    (provider : String → String) (acc : Option String) (c : Nat) : Option String :=
  match acc with
  | none => none
  | some docs =>
    match buildFakeDoc provider table [] with
    | none => none
    | some f =>
      some (docs ++ marshalValue (metaValue indexName c) ++ "\n"
                 ++ marshalValue (Value.obj f) ++ "\n")

/-- Model of `newLocationGenerate` itself: fold the loop body over `1..amount`,
starting from the empty byte payload. -/
def newLocationGenerate (indexName : String) (table : List (String × String))
    (provider : String → String) (amount : Nat) : Option String :=
  (List.range' 1 amount).foldl (generateStep indexName table provider) (some "")

/-- The document map a `Generate` call emits, described from the spec
side: each registered field name mapped to the provider's value for its
bound kind. -/
def docValue (table : List (String × String)) (provider : String → String) : Obj :=
  table.map (fun p => (p.1, Value.str (provider p.2)))

/-- Concatenation of a list of strings (the NDJSON payload as the
concatenation of its newline-terminated lines). -/
def concatAll : List String → String
  | [] => ""
  | s :: rest => s ++ concatAll rest

/-- Number of newline bytes in a string. -/
def numNL (s : String) : Nat := s.data.count '\n'

theorem numNL_append (s t : String) : numNL (s ++ t) = numNL s + numNL t := by
  unfold numNL
  rw [String.data_append, List.count_append]

theorem numNL_escapeChar (c : Char) : numNL (escapeChar c) = 0 := by
  unfold escapeChar
  by_cases h1 : c = '"'
  · simp [h1]; decide
  · by_cases h2 : c = '\\'
    · simp [h1, h2]; decide
    · by_cases h3 : c = '\n'
      · simp [h1, h2, h3]; decide
      · by_cases h4 : c = '\r'
        · simp [h1, h2, h3, h4]; decide
        · by_cases h5 : c = '\t'
          · simp [h1, h2, h3, h4, h5]; decide
          · simp only [h1, h2, h3, h4, h5, if_false]
            unfold numNL String.singleton
            simp [List.count_cons, h3]

theorem numNL_escapeChars (l : List Char) : numNL (escapeChars l) = 0 := by
  induction l with
  | nil => rfl
  | cons c rest ih =>
    show numNL (escapeChar c ++ escapeChars rest) = 0
    rw [numNL_append, numNL_escapeChar, ih]

theorem numNL_quoteString (s : String) : numNL (quoteString s) = 0 := by
  unfold quoteString
  rw [numNL_append, numNL_append, numNL_escapeChars]
  decide

theorem digitChar_ne_newline (n : Nat) (h : n < 10) : Nat.digitChar n ≠ '\n' := by
  interval_cases n <;> decide

theorem numNL_natToChars (n : Nat) : (natToChars n).count '\n' = 0 := by
  induction n using natToChars.induct with
  | case1 n h =>
    rw [natToChars, dif_pos h]
    simp [List.count_cons, (digitChar_ne_newline n h).symm]
  | case2 n h ih =>
    rw [natToChars, dif_neg h]
    rw [List.count_append, ih]
    simp [List.count_cons,
      (digitChar_ne_newline (n % 10) (Nat.mod_lt n (by decide))).symm]

theorem numNL_intToString (n : Int) : numNL (intToString n) = 0 := by
  cases n with
  | ofNat m =>
    show numNL (String.mk (natToChars m)) = 0
    exact numNL_natToChars m
  | negSucc m =>
    show numNL ("-" ++ String.mk (natToChars (m + 1))) = 0
    rw [numNL_append]
    have h2 : numNL (String.mk (natToChars (m + 1))) = 0 := numNL_natToChars (m + 1)
    rw [h2]
    decide

theorem numNL_marshalStrList (xs : List String) : numNL (marshalStrList xs) = 0 := by
  induction xs with
  | nil => rfl
  | cons s rest ih =>
    cases rest with
    | nil =>
      show numNL (quoteString s) = 0
      exact numNL_quoteString s
    | cons t rest' =>
      show numNL (quoteString s ++ "," ++ marshalStrList (t :: rest')) = 0
      rw [numNL_append, numNL_append, numNL_quoteString, ih]
      decide

mutual

theorem numNL_marshalValue : (v : Value) → numNL (marshalValue v) = 0
  | .str s => numNL_quoteString s
  | .int n => numNL_intToString n
  | .bool b => by cases b <;> decide
  | .arrStr xs => by
    show numNL ("[" ++ marshalStrList xs ++ "]") = 0
    rw [numNL_append, numNL_append, numNL_marshalStrList]
    decide
  | .obj kvs => by
    show numNL ("\x7b" ++ marshalFields kvs ++ "\x7d") = 0
    rw [numNL_append, numNL_append, numNL_marshalFields kvs]
    decide

theorem numNL_marshalFields : (kvs : List (String × Value)) → numNL (marshalFields kvs) = 0
  | [] => rfl
  | [(k, v)] => by
    show numNL (quoteString k ++ ":" ++ marshalValue v) = 0
    rw [numNL_append, numNL_append, numNL_quoteString, numNL_marshalValue v]
    decide
  | (k, v) :: (k', v') :: rest => by
    show numNL (quoteString k ++ ":" ++ marshalValue v ++ "," ++ marshalFields ((k', v') :: rest)) = 0
    rw [numNL_append, numNL_append, numNL_append, numNL_append, numNL_quoteString,
      numNL_marshalValue v, numNL_marshalFields ((k', v') :: rest)]
    decide

end

/-! ### Closed forms for `newLocationGenerate` -/

theorem insertKV_append {α : Type} (acc : List (String × α)) (k : String) (v : α)
    (h : ∀ p ∈ acc, p.1 < k) : insertKV acc k v = acc ++ [(k, v)] := by
  induction acc with
  | nil => rfl
  | cons hd tl ih =>
    have h0 : hd.1 < k := h hd (List.mem_cons_self _ _)
    obtain ⟨k0, v0⟩ := hd
    show (if k < k0 then _ else if k = k0 then _ else (k0, v0) :: insertKV tl k v) = _
    rw [if_neg (asymm h0), if_neg (ne_of_gt h0),
      ih (fun p hp => h p (List.mem_cons_of_mem _ hp))]
    rfl

theorem buildFakeDoc_closed (provider : String → String) (table : List (String × String))
    (acc : Obj)
    (hsort : List.Pairwise (· < ·) (acc.map Prod.fst ++ table.map Prod.fst))
    (hk : ∀ p ∈ table, p.2 ∈ fakeKinds) :
    buildFakeDoc provider table acc = some (acc ++ docValue table provider) := by
  induction table generalizing acc with
  | nil => simp [buildFakeDoc, docValue]
  | cons hd tl ih =>
    obtain ⟨k, t⟩ := hd
    have hkh : t ∈ fakeKinds := hk (k, t) (List.mem_cons_self _ _)
    show (match generateFakeData provider t with
          | none => none
          | some data => buildFakeDoc provider tl (insertKV acc k (Value.str data))) = _
    rw [generateFakeData, if_pos hkh]
    show buildFakeDoc provider tl (insertKV acc k (Value.str (provider t))) = _
    have hlt : ∀ p ∈ acc, p.1 < k := by
      intro p hp
      exact (List.pairwise_append.mp hsort).2.2 p.1 (List.mem_map_of_mem Prod.fst hp) k
        (by simp)
    rw [insertKV_append acc k (Value.str (provider t)) hlt]
    have hre : (acc ++ [(k, Value.str (provider t))]).map Prod.fst ++ tl.map Prod.fst
        = acc.map Prod.fst ++ ((k, t) :: tl).map Prod.fst := by
      simp
    rw [ih _ (by rw [hre]; exact hsort) (fun p hp => hk p (List.mem_cons_of_mem _ hp))]
    simp [docValue]

/-- One meta line and one document line, each newline-terminated: the
chunk `Generate` appends per document counter `c`. -/
def generatedLine (indexName : String) (doc : Obj) (c : Nat) : String :=
  marshalValue (metaValue indexName c) ++ "\n" ++ marshalValue (Value.obj doc) ++ "\n"

theorem generate_foldl (indexName : String) (table : List (String × String))
    (provider : String → String) (f : Obj)
    (hf : buildFakeDoc provider table [] = some f) (l : List Nat) (docs0 : String) :
    l.foldl (generateStep indexName table provider) (some docs0)
      = some (docs0 ++ concatAll (l.map (generatedLine indexName f))) := by
  induction l generalizing docs0 with
  | nil =>
    show some docs0 = some (docs0 ++ concatAll [])
    rw [show concatAll [] = "" from rfl, String.append_empty]
  | cons c cs ih =>
    show cs.foldl _ (generateStep indexName table provider (some docs0) c) = _
    have hstep : generateStep indexName table provider (some docs0) c
        = some (docs0 ++ marshalValue (metaValue indexName c) ++ "\n"
                     ++ marshalValue (Value.obj f) ++ "\n") := by
      show (match buildFakeDoc provider table [] with
            | none => none
            | some f => some (docs0 ++ marshalValue (metaValue indexName c) ++ "\n"
                           ++ marshalValue (Value.obj f) ++ "\n")) = _
      rw [hf]
    rw [hstep, ih]
    show some _ = some (docs0 ++ concatAll (generatedLine indexName f c :: cs.map (generatedLine indexName f)))
    rw [show ∀ x xs, concatAll (x :: xs) = x ++ concatAll xs from fun _ _ => rfl]
    rw [generatedLine]
    simp [String.append_assoc]

theorem numNL_generatedLine (indexName : String) (doc : Obj) (c : Nat) :
    numNL (generatedLine indexName doc c) = 2 := by
  rw [generatedLine, numNL_append, numNL_append, numNL_append,
    numNL_marshalValue, numNL_marshalValue]
  decide

theorem numNL_concatAll_generatedLine (indexName : String) (doc : Obj) (l : List Nat) :
    numNL (concatAll (l.map (generatedLine indexName doc))) = 2 * l.length := by
  induction l with
  | nil => rfl
  | cons c cs ih =>
    show numNL (generatedLine indexName doc c ++ concatAll (cs.map (generatedLine indexName doc))) = _
    rw [numNL_append, numNL_generatedLine, ih, List.length_cons]
    ring

theorem concatAll_generatedLine_terminated (indexName : String) (doc : Obj) :
    ∀ l : List Nat, l ≠ [] →
      ∃ s, concatAll (l.map (generatedLine indexName doc)) = s ++ "\n"
  | [], h => absurd rfl h
  | [c], _ =>
    ⟨marshalValue (metaValue indexName c) ++ "\n" ++ marshalValue (Value.obj doc), by
      show generatedLine indexName doc c ++ concatAll [] = _
      rw [show concatAll [] = "" from rfl, String.append_empty]
      rfl⟩
  | c :: d :: rest, _ => by
    obtain ⟨s, hs⟩ := concatAll_generatedLine_terminated indexName doc (d :: rest) (by simp)
    refine ⟨generatedLine indexName doc c ++ s, ?_⟩
    show generatedLine indexName doc c ++ concatAll ((d :: rest).map (generatedLine indexName doc)) = _
    rw [hs, String.append_assoc]

/-! ### Claim C1 and C4 theorems -/

/-- C1 counterexample: with the Field-Binding Table binding field `a` to
the unregistered kind `nope`, `Generate(1)` invokes a nil generator
function and panics — it produces no payload at all (modelled `none`)
instead of the claimed 2 lines, so the claim fails for this state of the
table. -/
theorem generate_unknown_kind_counterexample :
    newLocationGenerate "idx" [("a", "nope")] (fun _ => "") 1 = none := rfl

/-- C1 (amended): for every `n >= 1` and every state of the Field-Binding
Table all of whose bound kinds are registered fake kinds, `Generate(n)`
returns, for each `c` in `1..n` in order, one action-meta line
`\x7b"index":\x7b"_id":c,"_index":<name>\x7d\x7d` and one document line
whose keys are exactly the registered field names, every line (the last
included) terminated by a newline — hence exactly `2n` newlines. -/
theorem generate_lines_spec (indexName : String) (table : List (String × String))
    (provider : String → String) (n : Nat) (hn : 1 ≤ n)
    (hsort : List.Pairwise (· < ·) (table.map Prod.fst))
    (hk : ∀ p ∈ table, p.2 ∈ fakeKinds) :
    newLocationGenerate indexName table provider n
      = some (concatAll ((List.range' 1 n).map
          (generatedLine indexName (docValue table provider))))
    ∧ objKeys (Value.obj (docValue table provider)) = table.map Prod.fst
    ∧ numNL (concatAll ((List.range' 1 n).map
        (generatedLine indexName (docValue table provider)))) = 2 * n
    ∧ ∃ s, newLocationGenerate indexName table provider n = some (s ++ "\n") := by
  have hf : buildFakeDoc provider table [] = some (docValue table provider) := by
    have := buildFakeDoc_closed provider table [] (by simpa using hsort) hk
    simpa using this
  have hmain : newLocationGenerate indexName table provider n
      = some (concatAll ((List.range' 1 n).map
          (generatedLine indexName (docValue table provider)))) := by
    rw [newLocationGenerate, generate_foldl indexName table provider _ hf,
      String.empty_append]
  refine ⟨hmain, ?_, numNL_concatAll_generatedLine _ _ _ |>.trans (by rw [List.length_range']), ?_⟩
  · simp [objKeys, docValue, List.map_map, Function.comp]
  · obtain ⟨s, hs⟩ := concatAll_generatedLine_terminated indexName
      (docValue table provider) (List.range' 1 n)
      (by
        intro hnil
        have hlen : (List.range' 1 n).length = n := by simp
        rw [hnil] at hlen
        simp at hlen
        omega)
    exact ⟨s, by rw [hmain, hs]⟩

/-- Witness for the amended C1: a concrete table binding `city` to the
known kind `city`, with `n = 2`. -/
theorem generate_lines_spec_witness :
    (1 ≤ 2
      ∧ List.Pairwise (· < ·) ([("city", "city")].map Prod.fst)
      ∧ ∀ p ∈ [("city", "city")], p.2 ∈ fakeKinds)
    ∧ objKeys (Value.obj (docValue [("city", "city")] (fun _ => "Rome")))
        = [("city", "city")].map Prod.fst :=
  ⟨⟨by decide, by simp, by decide⟩,
   (generate_lines_spec "idx" [("city", "city")] (fun _ => "Rome") 2
      (by decide) (by simp) (by decide)).2.1⟩

/-- C4 counterexample: binding field `f` to the unknown kind `bogus`
makes `generateFakeData` come back with the nil generator (`none`, a
panic when called) and `Generate(1)` dies instead of completing with the
field simply absent — the claimed "no value, not an error" behavior does
not hold. -/
theorem generateFakeData_unknown_counterexample :
    generateFakeData (fun _ => "v") "bogus" = none
    ∧ newLocationGenerate "idx" [("f", "bogus")] (fun _ => "v") 1 = none :=
  ⟨rfl, rfl⟩

theorem buildFakeDoc_unknown_none (provider : String → String) :
    ∀ table : List (String × String), (∃ p ∈ table, p.2 ∉ fakeKinds) →
      ∀ acc, buildFakeDoc provider table acc = none := by
  intro table
  induction table with
  | nil =>
    rintro ⟨p, hp, _⟩
    cases hp
  | cons hd tl ih =>
    rintro ⟨p, hp, hnp⟩ acc
    obtain ⟨k, t⟩ := hd
    show (match generateFakeData provider t with
          | none => none
          | some data => buildFakeDoc provider tl (insertKV acc k (Value.str data))) = none
    by_cases ht : t ∈ fakeKinds
    · rw [generateFakeData, if_pos ht]
      rcases List.mem_cons.mp hp with rfl | hmem
      · exact absurd ht hnp
      · exact ih ⟨p, hmem, hnp⟩ _
    · rw [generateFakeData, if_neg ht]

theorem foldl_generateStep_none (indexName : String) (table : List (String × String))
    (provider : String → String) (l : List Nat) :
    l.foldl (generateStep indexName table provider) none = none := by
  induction l with
  | nil => rfl
  | cons c cs ih => exact ih

/-- C4 (amended): a field bound to an unregistered fake-data kind does
not get silently skipped — the nil generator function is invoked and the
whole generation run aborts in a runtime panic (modelled: `Generate(n)`
yields no payload) for every `n >= 1`. -/
theorem generate_unknown_kind_aborts (indexName : String) (table : List (String × String))
    (provider : String → String) (n : Nat) (hn : 1 ≤ n)
    (h : ∃ p ∈ table, p.2 ∉ fakeKinds) :
    newLocationGenerate indexName table provider n = none := by
  obtain ⟨m, rfl⟩ : ∃ m, n = m + 1 := ⟨n - 1, (Nat.succ_pred_eq_of_pos hn).symm⟩
  rw [newLocationGenerate, List.range'_succ]
  have h1 : generateStep indexName table provider (some "") 1 = none := by
    show (match buildFakeDoc provider table [] with
          | none => none
          | some f => some ("" ++ marshalValue (metaValue indexName 1) ++ "\n"
                         ++ marshalValue (Value.obj f) ++ "\n")) = none
    rw [buildFakeDoc_unknown_none provider table h []]
  rw [List.foldl_cons, h1]
  exact foldl_generateStep_none indexName table provider _

/-- Witness for the amended C4: the singleton table binding `g` to the
unknown kind `zzz`, with `n = 1`. -/
theorem generate_unknown_kind_aborts_witness :
    (1 ≤ 1 ∧ ∃ p ∈ [("g", "zzz")], p.2 ∉ fakeKinds)
    ∧ newLocationGenerate "i" [("g", "zzz")] (fun _ => "") 1 = none :=
  ⟨⟨by decide, by decide⟩,
   generate_unknown_kind_aborts "i" [("g", "zzz")] (fun _ => "") 1 (by decide) (by decide)⟩

/-! ### Index definition configuration (src/config.go) and its
serialization

`utils.MarshalJSON` is `encoding/json`'s `Marshal`.  Struct fields are
emitted in declaration order; every optional field carries `omitempty`:
a nil pointer (`Option … = none`), a zero int, and a nil or empty map
are omitted from the output entirely.  Non-optional data (the maps
inside `analysis`) appears with its key only when non-empty, per the
same tags. -/

/-- Model of `AnalysisConfig`: `analyzer` / `normalizer` maps, each
`json:"…,omitempty"`.  A Go map that is nil or empty is the empty
association list. -/
structure AnalysisConfig where
  analyzer : Obj
  normalizer : Obj

/-- Model of `SettingsConfig`: shard/replica counts and optional analysis, all
`omitempty`. -/
structure SettingsConfig where
  numberOfShards : Int
  numberOfReplicas : Int
  analysis : Option AnalysisConfig

/-- Model of `MappingsConfig`: the `properties` map, `json:"properties,omitempty"`. -/
structure MappingsConfig where
  properties : Obj

/-- Model of `DefinitionConfig`: optional `settings` and `mappings` pointers,
both `json:"…,omitempty"`. -/
structure DefinitionConfig where
  settings : Option SettingsConfig
  mappings : Option MappingsConfig

/-- Model of `encoding/json` output object for `AnalysisConfig`: `omitempty`
drops an empty map, fields in declaration order. -/
def analysisValue (a : AnalysisConfig) : Value :=
  Value.obj ((if a.analyzer.isEmpty then [] else [("analyzer", Value.obj a.analyzer)]) ++
             (if a.normalizer.isEmpty then [] else [("normalizer", Value.obj a.normalizer)]))

/-- Model of `encoding/json` output object for `SettingsConfig`: `omitempty`
drops a zero count and a nil `Analysis` pointer. -/
def settingsValue (s : SettingsConfig) : Value :=
  Value.obj ((if s.numberOfShards = 0 then [] else [("number_of_shards", Value.int s.numberOfShards)]) ++
             (if s.numberOfReplicas = 0 then [] else [("number_of_replicas", Value.int s.numberOfReplicas)]) ++
             (match s.analysis with
              | none => []
              | some a => [("analysis", analysisValue a)]))

/-- Model of `encoding/json` output object for `MappingsConfig`. -/
def mappingsValue (m : MappingsConfig) : Value :=
  Value.obj (if m.properties.isEmpty then [] else [("properties", Value.obj m.properties)])

/-- Model of `encoding/json` output object for `DefinitionConfig`: `omitempty`
drops nil `Settings` / `Mappings` pointers. -/
def definitionValue (d : DefinitionConfig) : Value :=
  Value.obj ((match d.settings with
              | none => []
              | some s => [("settings", settingsValue s)]) ++
             (match d.mappings with
              | none => []
              | some m => [("mappings", mappingsValue m)]))

/-- Model of `utils.MarshalJSON` (src/internal/utils/utils.go lines 34-38)
applied to a `DefinitionConfig`, as `MigrateIndex` does on the up path. -/
def MarshalJSON (d : DefinitionConfig) : String :=
  marshalValue (definitionValue d)

/-- C9: every absent optional section (settings, mappings, analysis,
analyzer, normalizer, properties) is omitted from the serialized schema
document entirely — the serialized keys of each composed object are
exactly the present sections, an absent section never shows up as an
empty object or a null, and a definition with neither settings nor
mappings serializes to the empty JSON object. -/
theorem definition_omitempty (d : DefinitionConfig) (s : SettingsConfig)
    (a : AnalysisConfig) (m : MappingsConfig) :
    MarshalJSON ⟨none, none⟩ = "\x7b\x7d"
    ∧ objKeys (definitionValue d)
        = ((if d.settings.isSome then ["settings"] else [])
            ++ (if d.mappings.isSome then ["mappings"] else []))
    ∧ objKeys (settingsValue s)
        = ((if s.numberOfShards = 0 then [] else ["number_of_shards"])
            ++ (if s.numberOfReplicas = 0 then [] else ["number_of_replicas"])
            ++ (if s.analysis.isSome then ["analysis"] else []))
    ∧ objKeys (analysisValue a)
        = ((if a.analyzer.isEmpty then [] else ["analyzer"])
            ++ (if a.normalizer.isEmpty then [] else ["normalizer"]))
    ∧ objKeys (mappingsValue m)
        = (if m.properties.isEmpty then [] else ["properties"]) := by
  refine ⟨rfl, ?_, ?_, ?_, ?_⟩
  · rcases d with ⟨_ | s', _ | m'⟩ <;> simp [definitionValue, objKeys]
  · rcases s with ⟨sh, rep, _ | a'⟩ <;>
      by_cases hsh : sh = 0 <;> by_cases hrep : rep = 0 <;>
        simp [settingsValue, objKeys, hsh, hrep]
  · rcases a with ⟨an, no⟩ <;>
      by_cases han : an.isEmpty <;> by_cases hno : no.isEmpty <;>
        simp [analysisValue, objKeys, han, hno]
  · rcases m with ⟨pr⟩
    by_cases hpr : pr.isEmpty <;> simp [mappingsValue, objKeys, hpr]

/-! ### Migration orchestrator (src/unnamed/part_007, lines 1-365)

Go errors are a small inductive: the named error values of the package
plus arbitrary external client / OS errors, and `wrap o i` for
`fmt.Errorf("%w\n%v", o, i)`.  Every call to the external Elasticsearch
client and every phase-operation invocation threads a trace of events —
the observable effect order — through the computation; the client
(`searcher` interface) is a structure of trace-threading functions. -/

/-- Go error values: the package's named errors, opaque external errors
and `fmt.Errorf("%w…", outer, inner)` wrapping. -/
inductive GoErr where
  | errOriginFromFile
  | errPorterMigratingUp
  | errPorterMigratingDown
  | errMigratorMigratingIndex
  | errMigratorDocuments
  | errClient (n : Nat)
  | errIO (n : Nat)
  | wrap (outer inner : GoErr)
deriving Repr, DecidableEq

/-- Observable invocation events: the external client's four operations,
plus marker events for a recording phase operation / origin resolver
(the spec's recording test doubles). -/
inductive Event where
  | indexOp
  | documentsOp
  | originCall
  | createIndex (name : String) (body : String)
  | createDocuments (name : String) (docs : String)
  | deleteIndex (name : String)
  | deleteDocuments (name : String) (query : String)
deriving Repr, DecidableEq

/-- The `searcher` interface (src/unnamed/part_007 lines 81-86), each
operation threading the event trace. -/
structure Searcher where
  createIndex : String → String → List Event → List Event × Option GoErr
  createDocuments : String → String → List Event → List Event × Option GoErr
  deleteIndex : String → List Event → List Event × Option GoErr
  deleteDocuments : String → String → List Event → List Event × Option GoErr

/-- Model of `Config` (src/config.go lines 26-29). -/
structure Config where
  name : String
  definition : DefinitionConfig

/-- Migration direction constants. -/
def directionUp : Nat := 1

/-- Migration direction constant for down. -/
def directionDown : Nat := 2

/-- Model of `temp` (src/unnamed/part_007 lines 255-260). -/
structure Temp where
  direction : Nat
  config : Config
  client : Searcher

/-- Model of `indexFunc`. -/
def IndexFunc := Temp → List Event → List Event × Option GoErr

/-- Model of `documentsFunc`. -/
def DocumentsFunc := Temp → List Event → List Event × Option GoErr

/-- Model of `originFunc`: yields the document payload bytes or an error. -/
def OriginFunc := Temp → List Event → List Event × Except GoErr String

/-- Model of `M` (src/unnamed/part_007 lines 36-41), reduced to the only field
its methods consult: the client. -/
structure M where
  Client : Searcher

/-- Model of `M.MigrateUp` (src/unnamed/part_007 lines 263-282): run the index
operation, short-circuit on failure, then the documents operation; every
failure is wrapped in `ErrPorterMigratingUp`. -/
def M.MigrateUp (m : M) (config : Config) (index : IndexFunc)
    (documents : DocumentsFunc) (tr : List Event) : List Event × Option GoErr :=
  let t : Temp := ⟨directionUp, config, m.Client⟩
  match index t tr with
  | (tr1, some err) => (tr1, some (GoErr.wrap GoErr.errPorterMigratingUp err))
  | (tr1, none) =>
    match documents t tr1 with
    | (tr2, some err) => (tr2, some (GoErr.wrap GoErr.errPorterMigratingUp err))
    | (tr2, none) => (tr2, none)

/-- Model of `M.MigrateDown` (src/unnamed/part_007 lines 285-304): run the
documents operation, short-circuit on failure, then the index operation;
every failure is wrapped in `ErrPorterMigratingDown`. -/
def M.MigrateDown (m : M) (config : Config) (documents : DocumentsFunc)
    (index : IndexFunc) (tr : List Event) : List Event × Option GoErr :=
  let t : Temp := ⟨directionDown, config, m.Client⟩
  match documents t tr with
  | (tr1, some err) => (tr1, some (GoErr.wrap GoErr.errPorterMigratingDown err))
  | (tr1, none) =>
    match index t tr1 with
    | (tr2, some err) => (tr2, some (GoErr.wrap GoErr.errPorterMigratingDown err))
    | (tr2, none) => (tr2, none)

/-- Model of `index.NoIndex` (src/unnamed/part_007 lines 309-313): the no-op
index phase. -/
def NoIndex : IndexFunc := fun _ tr => (tr, none)

/-- Model of `documents.NoDocuments` (src/unnamed/part_007 lines 337-341): the
no-op documents phase. -/
def NoDocuments : DocumentsFunc := fun _ tr => (tr, none)

/-- Model of `index.MigrateIndex` (src/unnamed/part_007 lines 316-332): create
the index from the marshalled definition on the up path, delete it on
the down path, wrapping client failures in `ErrMigratorMigratingIndex`. -/
def MigrateIndex : IndexFunc := fun t tr =>
  if t.direction = directionUp then
    match t.client.createIndex t.config.name (MarshalJSON t.config.definition) tr with
    | (tr1, some err) => (tr1, some (GoErr.wrap GoErr.errMigratorMigratingIndex err))
    | (tr1, none) => (tr1, none)
  else
    match t.client.deleteIndex t.config.name tr with
    | (tr1, some err) => (tr1, some (GoErr.wrap GoErr.errMigratorMigratingIndex err))
    | (tr1, none) => (tr1, none)

/-- The match-all delete query of `MigrateDocuments`. -/
def matchAllQuery : String := "\x7b\"query\": \x7b\"match_all\": \x7b\x7d\x7d\x7d"

/-- Model of `documents.MigrateDocuments` (src/unnamed/part_007 lines 344-365):
on the up path resolve the origin and bulk-insert the payload, on the
down path ignore the origin and delete by match-all query; failures of
either step are wrapped in `ErrMigratorDocuments`. -/
def MigrateDocuments (origin : OriginFunc) : DocumentsFunc := fun t tr =>
  if t.direction = directionUp then
    match origin t tr with
    | (tr1, .error err) => (tr1, some (GoErr.wrap GoErr.errMigratorDocuments err))
    | (tr1, .ok docs) =>
      match t.client.createDocuments t.config.name docs tr1 with
      | (tr2, some err) => (tr2, some (GoErr.wrap GoErr.errMigratorDocuments err))
      | (tr2, none) => (tr2, none)
  else
    match t.client.deleteDocuments t.config.name matchAllQuery tr with
    | (tr1, some err) => (tr1, some (GoErr.wrap GoErr.errMigratorDocuments err))
    | (tr1, none) => (tr1, none)

/-- Model of `newLocationFromFile` (src/unnamed/part_000 lines 40-50): read the
file verbatim through the ambient OS (`readFile` models `os.ReadFile`),
wrapping any read failure in `ErrOriginFromFile`. -/
def newLocationFromFile (readFile : String → Except GoErr String) (path : String) :
    OriginFunc := fun _ tr =>
  match readFile path with
  | .error e => (tr, .error (GoErr.wrap GoErr.errOriginFromFile e))
  | .ok contents => (tr, .ok contents)

/-- Recording test double for an index phase operation: append the
marker event, then behave as `b`. -/
def recordIndexOp (b : Temp → Option GoErr) : IndexFunc :=
  fun t tr => (tr ++ [Event.indexOp], b t)

/-- Recording test double for a documents phase operation. -/
def recordDocumentsOp (b : Temp → Option GoErr) : DocumentsFunc :=
  fun t tr => (tr ++ [Event.documentsOp], b t)

/-- Recording test double for an origin resolver. -/
def recordOrigin (b : Temp → Except GoErr String) : OriginFunc :=
  fun t tr => (tr ++ [Event.originCall], b t)

/-- Recording client: each operation appends its event and then behaves
as the given behavior function. -/
def recordingSearcher (bCI bCD : String → String → Option GoErr)
    (bDI : String → Option GoErr) (bDD : String → String → Option GoErr) : Searcher where
  createIndex := fun name body tr => (tr ++ [Event.createIndex name body], bCI name body)
  createDocuments := fun name docs tr => (tr ++ [Event.createDocuments name docs], bCD name docs)
  deleteIndex := fun name tr => (tr ++ [Event.deleteIndex name], bDI name)
  deleteDocuments := fun name query tr => (tr ++ [Event.deleteDocuments name query], bDD name query)

/-! ### Claim C2, C5, C6, C7 theorems -/

/-- C2: for every config and every pair of phase-operation behaviors,
`MigrateUp` invokes the index operation strictly before the documents
operation and, when the index operation fails, returns that (wrapped)
failure without the documents operation ever being invoked — its marker
event is absent from the trace; `MigrateDown` is the symmetric story
with the documents operation first. -/
theorem migrate_call_order (m : M) (cfg : Config) (bi bd : Temp → Option GoErr)
    (tr : List Event) :
    m.MigrateUp cfg (recordIndexOp bi) (recordDocumentsOp bd) tr =
      (match bi ⟨directionUp, cfg, m.Client⟩ with
       | some e => (tr ++ [Event.indexOp], some (GoErr.wrap GoErr.errPorterMigratingUp e))
       | none =>
         match bd ⟨directionUp, cfg, m.Client⟩ with
         | some e => (tr ++ [Event.indexOp, Event.documentsOp],
                      some (GoErr.wrap GoErr.errPorterMigratingUp e))
         | none => (tr ++ [Event.indexOp, Event.documentsOp], none))
    ∧ m.MigrateDown cfg (recordDocumentsOp bd) (recordIndexOp bi) tr =
      (match bd ⟨directionDown, cfg, m.Client⟩ with
       | some e => (tr ++ [Event.documentsOp], some (GoErr.wrap GoErr.errPorterMigratingDown e))
       | none =>
         match bi ⟨directionDown, cfg, m.Client⟩ with
         | some e => (tr ++ [Event.documentsOp, Event.indexOp],
                      some (GoErr.wrap GoErr.errPorterMigratingDown e))
         | none => (tr ++ [Event.documentsOp, Event.indexOp], none)) := by
  constructor
  · rcases h1 : bi ⟨directionUp, cfg, m.Client⟩ with _ | e <;>
      rcases h2 : bd ⟨directionUp, cfg, m.Client⟩ with _ | e' <;>
        simp [M.MigrateUp, recordIndexOp, recordDocumentsOp, h1, h2, List.append_assoc]
  · rcases h1 : bd ⟨directionDown, cfg, m.Client⟩ with _ | e <;>
      rcases h2 : bi ⟨directionDown, cfg, m.Client⟩ with _ | e' <;>
        simp [M.MigrateDown, recordIndexOp, recordDocumentsOp, h1, h2, List.append_assoc]

/-- C5: `FromFile(path)` yields the file's bytes verbatim on success
(in particular a zero-length payload, and no error, for an existing
zero-byte file) and wraps any underlying read failure in the distinct
`ErrOriginFromFile` error kind. -/
theorem fromFile_spec (readFile : String → Except GoErr String) (path : String)
    (t : Temp) (tr : List Event) :
    newLocationFromFile readFile path t tr =
      (tr, match readFile path with
           | .ok contents => Except.ok contents
           | .error e => Except.error (GoErr.wrap GoErr.errOriginFromFile e))
    ∧ (newLocationFromFile readFile path t tr = (tr, Except.ok "")
        ↔ readFile path = .ok "") := by
  constructor
  · rcases h : readFile path with e | c <;> simp [newLocationFromFile, h]
  · rcases h : readFile path with e | c <;> simp [newLocationFromFile, h]

/-- C6: for every config (and any client whatsoever), `MigrateUp` with
the no-op index operation and the no-op documents operation succeeds
unconditionally and appends no event to the trace — no operation of the
external search-engine client is ever invoked. -/
theorem migrateUp_noop_spec (m : M) (cfg : Config) (tr : List Event) :
    m.MigrateUp cfg NoIndex NoDocuments tr = (tr, none) := rfl

/-- C7: the documents phase in the down direction never invokes the
supplied origin resolver (no `originCall` event) and calls the client's
delete-by-query operation with the match-all query; in the up direction
it first invokes the origin and only then calls bulk insert with the
payload the origin produced, short-circuiting (no client call) when the
origin fails. -/
theorem migrateDocuments_spec (cfg : Config) (ob : Temp → Except GoErr String)
    (bCI bCD : String → String → Option GoErr) (bDI : String → Option GoErr)
    (bDD : String → String → Option GoErr) (tr : List Event) :
    MigrateDocuments (recordOrigin ob)
        ⟨directionDown, cfg, recordingSearcher bCI bCD bDI bDD⟩ tr =
      (tr ++ [Event.deleteDocuments cfg.name matchAllQuery],
       (bDD cfg.name matchAllQuery).map (GoErr.wrap GoErr.errMigratorDocuments))
    ∧ MigrateDocuments (recordOrigin ob)
        ⟨directionUp, cfg, recordingSearcher bCI bCD bDI bDD⟩ tr =
      (match ob ⟨directionUp, cfg, recordingSearcher bCI bCD bDI bDD⟩ with
       | .error e => (tr ++ [Event.originCall], some (GoErr.wrap GoErr.errMigratorDocuments e))
       | .ok docs =>
         (tr ++ [Event.originCall, Event.createDocuments cfg.name docs],
          (bCD cfg.name docs).map (GoErr.wrap GoErr.errMigratorDocuments))) := by
  constructor
  · show (match (tr ++ [Event.deleteDocuments cfg.name matchAllQuery],
                 bDD cfg.name matchAllQuery) with
          | (tr1, some err) => (tr1, some (GoErr.wrap GoErr.errMigratorDocuments err))
          | (tr1, none) => (tr1, none)) = _
    rcases bDD cfg.name matchAllQuery with _ | e <;> rfl
  · show (match (tr ++ [Event.originCall],
                 ob ⟨directionUp, cfg, recordingSearcher bCI bCD bDI bDD⟩) with
          | (tr1, Except.error err) => (tr1, some (GoErr.wrap GoErr.errMigratorDocuments err))
          | (tr1, Except.ok docs) =>
            match ((tr1 ++ [Event.createDocuments cfg.name docs] : List Event),
                   bCD cfg.name docs) with
            | (tr2, some err) => (tr2, some (GoErr.wrap GoErr.errMigratorDocuments err))
            | (tr2, none) => (tr2, none)) = _
    rcases ob ⟨directionUp, cfg, recordingSearcher bCI bCD bDI bDD⟩ with e | docs
    · rfl
    · rcases h2 : bCD cfg.name docs with _ | e' <;> simp [h2, List.append_assoc]

end Porter
